import Mathlib

/-!
Verification of the function-webhook management subsystem of the parse-cli
repository (`functions_cmd.go`), as a shallow embedding in Lean 4.

The Go code is single-threaded and linear: every workflow reads whitespace
delimited tokens from an input stream (`fmt.Fscanf(e.In, "%s\n", ...)`),
writes formatted text to an output stream and an error stream, and performs
at most one HTTP request through the Parse API client.  We model

  * the input stream as a `List String` of tokens (a read on an exhausted
    stream leaves the target variable empty, exactly as `Fscanf` does on EOF);
  * the two text streams as a single ordered trace of `OutEvent`s, so that
    ordering between output and error writes is preserved;
  * the HTTP client as an explicit list of issued requests plus a
    caller-supplied response (`Except` for the transport error case), so that
    "no HTTP request is made" is the statement `reqs = []`.

`validateURL` and `getConfirmation` are referenced by `functions_cmd.go` but
their bodies are not part of the sources at hand; they are modelled from the
specification and marked as such in their doc comments.
-/

namespace ParseCli

/-- The `functionHook` struct: `FunctionName`, `URL`, `Warning`, all strings,
all tagged `json:"...,omitempty"`. -/
structure FunctionHook where
  functionName : String
  url : String
  warning : String
deriving DecidableEq, Repr

/-- One hexadecimal digit (lowercase), as produced by Go's `%q` escapes. -/
def hexChar (n : Nat) : Char :=
  if n < 10 then Char.ofNat (48 + n) else Char.ofNat (87 + n)

/-- Fixed-width big-endian lowercase hexadecimal rendering of `n`, `w` nibbles. -/
def hexOfNat (w n : Nat) : String :=
  String.mk ((List.range w).map (fun i => hexChar (n / 16 ^ (w - 1 - i) % 16)))

/-- Go's `%q` escaping of a single character (`strconv.Quote` body).  The
quote and backslash are escaped, printable characters are kept verbatim, the
named control escapes are used for BEL/BS/FF/LF/CR/TAB/VT, other control
characters become `\xHH`/`\uHHHH`/`\UHHHHHHHH`.  Go decides printability of
non-ASCII characters from the Unicode tables; we approximate those tables by
treating every code point at or above U+00A0 as printable and the C0/C1
control ranges as non-printable, which agrees with Go on all inputs the
claims touch. -/
def goQuoteChar (c : Char) : String :=
  if c = '"' then "\\\""
  else if c = '\\' then "\\\\"
  else if 0x20 ≤ c.toNat ∧ c.toNat ≤ 0x7e then String.singleton c
  else if c.toNat = 7 then "\\a"
  else if c.toNat = 8 then "\\b"
  else if c.toNat = 12 then "\\f"
  else if c = '\n' then "\\n"
  else if c = '\r' then "\\r"
  else if c = '\t' then "\\t"
  else if c.toNat = 11 then "\\v"
  else if 0xa0 ≤ c.toNat then String.singleton c
  else if c.toNat < 0x80 then "\\x" ++ hexOfNat 2 c.toNat
  else "\\u" ++ hexOfNat 4 c.toNat

/-- Go's `%q` verb on a string: a double-quoted Go string literal. -/
def goQuote (s : String) : String :=
  "\"" ++ String.join (s.toList.map goQuoteChar) ++ "\""

/-- The `String()` method of `functionHook`:
`Function name: %q, URL: %q` when a URL is present, else `Function name: %q`. -/
def FunctionHook.string (f : FunctionHook) : String :=
  if f.url ≠ "" then
    "Function name: " ++ goQuote f.functionName ++ ", URL: " ++ goQuote f.url
  else
    "Function name: " ++ goQuote f.functionName

/-- JSON serialization of a `functionHook` with the `omitempty` option: a
field appears in the encoded object exactly when its string value is
non-empty, in struct order `functionName`, `url`, `warning`. -/
def FunctionHook.jsonFields (f : FunctionHook) : List (String × String) :=
  (if f.functionName ≠ "" then [("functionName", f.functionName)] else []) ++
  (if f.url ≠ "" then [("url", f.url)] else []) ++
  (if f.warning ≠ "" then [("warning", f.warning)] else [])

/-- A write to one of the two text streams (`e.Out` / `e.Err`). -/
inductive OutEvent where
  | out : String → OutEvent
  | err : String → OutEvent
deriving DecidableEq, Repr

/-- An HTTP request issued through the Parse API client.  Bodies are the
JSON objects actually serialized, as ordered field lists. -/
inductive HttpReq where
  | get : String → HttpReq
  | post : String → List (String × String) → HttpReq
  | put : String → List (String × String) → HttpReq
deriving DecidableEq, Repr

/-- The observable outcome of running one workflow: the ordered trace of
stream writes, the list of HTTP requests issued, and the returned `error`
(`Except.ok ()` models a `nil` error). -/
structure RunResult where
  trace : List OutEvent
  reqs : List HttpReq
  result : Except String Unit
deriving Repr

/-- Outcome of one of the input-reader helpers: the returned
`(*functionHook, error)` pair, the unconsumed input, and the prompts written. -/
structure ReadResult where
  res : Except String FunctionHook
  rest : List String
  trace : List OutEvent
deriving Repr

/-- `fmt.Fscanf(e.In, "%s\n", &x)`: reads the next whitespace-delimited
token; on an exhausted stream the target variable is left empty. -/
def scanToken : List String → String × List String
  | [] => ("", [])
  | t :: ts => (t, ts)

/-- `readFunctionName`: prompt, scan one token as the function name, reject
an empty name. -/
def readFunctionName (input : List String) : ReadResult :=
  let p := scanToken input
  if p.1 = "" then
    ⟨Except.error "Function name cannot be empty", p.2,
      [OutEvent.out "Please enter the function name: "]⟩
  else
    ⟨Except.ok ⟨p.1, "", ""⟩, p.2, [OutEvent.out "Please enter the function name: "]⟩

/-- Modelled from the spec: the body of `validateURL` is not among the
sources at hand (only its caller `readFunctionParams` is).  The spec says the
Input Reader "validates the resulting URL is well-formed" and names the
invalid cases as "empty host, invalid scheme after prefixing"; we therefore
accept exactly the strings that begin with the scheme prefix `https://` and
whose host portion (the segment before the next slash) is non-empty. -/
def validateURL (s : String) : Bool :=
  decide (s.toList.take 8 = "https://".toList) &&
    !((s.toList.drop 8).takeWhile (fun c => c ≠ '/')).isEmpty

/-- The error message for a URL that fails validation (the concrete wording
lives in the missing `validateURL` body; the message text decides nothing). -/
def invalidURLMessage : String := "Invalid URL"

/-- `readFunctionParams`: read the name, then prompt `URL: https://`, scan a
token, prepend the fixed prefix `https://`, and validate the result. -/
def readFunctionParams (input : List String) : ReadResult :=
  let r := readFunctionName input
  match r.res with
  | Except.error e => ⟨Except.error e, r.rest, r.trace⟩
  | Except.ok f =>
    let p := scanToken r.rest
    let u := "https://" ++ p.1
    let tr := r.trace ++ [OutEvent.out "URL: https://"]
    if validateURL u then
      ⟨Except.ok { f with url := u }, p.2, tr⟩
    else
      ⟨Except.error invalidURLMessage, p.2, tr⟩

/-- `defaultFunctionsURL`, the fixed collection path. -/
def defaultFunctionsURL : String := "/1/hooks/functions"

/-- `path.Join(defaultFunctionsURL, name)`.  (Go's `path.Join` additionally
cleans the result; function names are single scanned tokens, for which the
join is plain concatenation with a separator.) -/
def pathJoin (a b : String) : String := a ++ "/" ++ b

/-- Outcome of the confirmation prompt: the boolean answer, the unconsumed
input, and the prompt written. -/
structure ConfirmResult where
  confirmed : Bool
  rest : List String
  trace : List OutEvent
deriving Repr

/-- ASCII lowercasing of one character. -/
def lowerChar (c : Char) : Char :=
  if 'A' ≤ c ∧ c ≤ 'Z' then Char.ofNat (c.toNat + 32) else c

/-- Modelled from the spec: the body of `getConfirmation` is not among the
sources at hand.  The spec describes it as "a yes/no confirmation prompt";
we model an affirmative answer as `y`/`yes` up to ASCII case. -/
def isAffirmative (s : String) : Bool :=
  decide (s.toList.map lowerChar = ['y']) ||
    decide (s.toList.map lowerChar = ['y', 'e', 's'])

/-- Modelled from the spec: `getConfirmation` displays the message and reads
the user's yes/no answer from the input stream. -/
def getConfirmation (message : String) (input : List String) : ConfirmResult :=
  let p := scanToken input
  ⟨isAffirmative p.1, p.2, [OutEvent.out message]⟩

/-- The `WARNING: %s\n` write to the error stream, made exactly when the
response warning is non-empty. -/
def warningEvents (res : FunctionHook) : List OutEvent :=
  if res.warning ≠ "" then [OutEvent.err ("WARNING: " ++ res.warning ++ "\n")] else []

/-- The create confirmation line. -/
def createSuccessLine (res : FunctionHook) : String :=
  "Successfully created a webhook function " ++ goQuote res.functionName ++
    " pointing to " ++ goQuote res.url ++ "\n"

/-- `functionHooksCreate`: read name and URL, `POST` the hook to the
collection path, print the server warning (if any) to the error stream, then
print the confirmation naming the response's pair. -/
def functionHooksCreate (input : List String) (api : Except String FunctionHook) :
    RunResult :=
  let r := readFunctionParams input
  match r.res with
  | Except.error e => ⟨r.trace, [], Except.error e⟩
  | Except.ok params =>
    let req := HttpReq.post defaultFunctionsURL params.jsonFields
    match api with
    | Except.error e => ⟨r.trace, [req], Except.error e⟩
    | Except.ok res =>
      ⟨r.trace ++ warningEvents res ++ [OutEvent.out (createSuccessLine res)],
        [req], Except.ok ()⟩

/-- `sort.Strings`: sorts a string slice lexicographically (bytewise on the
UTF-8 encoding, which coincides with code-point order).  Any sorting
algorithm yields the same result on a decidable linear order; we use
insertion sort. -/
def sortStrings (l : List String) : List String :=
  List.insertionSort (fun a b => a ≤ b) l

/-- The header printed in the unfiltered (read-all) mode. -/
def allFunctionsHeader : String :=
  "The following cloudcode or webhook functions are associated with this app:\n"

/-- The read-one header when exactly one line is rendered. -/
def singularHeader (n : String) : String :=
  "You have one function named: " ++ goQuote n ++ "\n"

/-- The read-one header otherwise. -/
def pluralHeader (n : String) : String :=
  "The following functions named: " ++ goQuote n ++ " are associated with your app:\n"

/-- `fmt.Fprintln(e.Out, strings.Join(output, "\n"))`: the sorted rendered
lines, newline-joined, with the trailing newline `Fprintln` appends. -/
def joinedBody (output : List String) : String :=
  String.intercalate "\n" output ++ "\n"

/-- `functionHooksRead` with `h.All = all`: in filtered mode read the name
and `GET` the member path, otherwise `GET` the collection path; render every
result via `FunctionHook.string`, sort the lines, choose the header, print
header then body. -/
def functionHooksRead (all : Bool) (input : List String)
    (api : Except String (List FunctionHook)) : RunResult :=
  if all then
    match api with
    | Except.error e => ⟨[], [HttpReq.get defaultFunctionsURL], Except.error e⟩
    | Except.ok results =>
      let output := sortStrings (results.map FunctionHook.string)
      ⟨[OutEvent.out allFunctionsHeader, OutEvent.out (joinedBody output)],
        [HttpReq.get defaultFunctionsURL], Except.ok ()⟩
  else
    let r := readFunctionName input
    match r.res with
    | Except.error e => ⟨r.trace, [], Except.error e⟩
    | Except.ok f =>
      let u := pathJoin defaultFunctionsURL f.functionName
      match api with
      | Except.error e => ⟨r.trace, [HttpReq.get u], Except.error e⟩
      | Except.ok results =>
        let output := sortStrings (results.map FunctionHook.string)
        let header :=
          if output.length = 1 then singularHeader f.functionName
          else pluralHeader f.functionName
        ⟨r.trace ++ [OutEvent.out header, OutEvent.out (joinedBody output)],
          [HttpReq.get u], Except.ok ()⟩

/-- The update confirmation line (the source says "Successfully update"). -/
def updateSuccessLine (res : FunctionHook) : String :=
  "Successfully update the webhook function " ++ goQuote res.functionName ++
    " to point to " ++ goQuote res.url ++ "\n"

/-- `functionHooksUpdate`: read name and URL, `PUT` to collection-path/name a
hook carrying only the URL (`&functionHook{URL: params.URL}`), print the
warning (if any) to the error stream, then the confirmation naming the
response's pair. -/
def functionHooksUpdate (input : List String) (api : Except String FunctionHook) :
    RunResult :=
  let r := readFunctionParams input
  match r.res with
  | Except.error e => ⟨r.trace, [], Except.error e⟩
  | Except.ok params =>
    let req := HttpReq.put (pathJoin defaultFunctionsURL params.functionName)
      (FunctionHook.jsonFields ⟨"", params.url, ""⟩)
    match api with
    | Except.error e => ⟨r.trace, [req], Except.error e⟩
    | Except.ok res =>
      ⟨r.trace ++ warningEvents res ++ [OutEvent.out (updateSuccessLine res)],
        [req], Except.ok ()⟩

/-- The delete confirmation prompt for a function name. -/
def deleteConfirmMessage (n : String) : String :=
  "Are you sure you want to delete webhook function: " ++ goQuote n ++ " (y/n): "

/-- The delete success line. -/
def deleteSuccessLine (n : String) : String :=
  "Successfully deleted webhook function " ++ goQuote n ++ "\n"

/-- The cloud-code fallback notice naming the response's function name. -/
def henceforthLine (n : String) : String :=
  "Function " ++ goQuote n ++ " defined in cloud code will be used henceforth\n"

/-- `functionHooksDelete`: read the name, ask for confirmation; if confirmed,
`PUT` the delete-operator body to collection-path/name, print the deletion
confirmation and, when the response carries a non-empty `FunctionName`, the
cloud-code fallback notice.  If not confirmed, do nothing and return `nil`. -/
def functionHooksDelete (input : List String) (api : Except String FunctionHook) :
    RunResult :=
  let r := readFunctionName input
  match r.res with
  | Except.error e => ⟨r.trace, [], Except.error e⟩
  | Except.ok params =>
    let c := getConfirmation (deleteConfirmMessage params.functionName) r.rest
    if c.confirmed then
      let req := HttpReq.put (pathJoin defaultFunctionsURL params.functionName)
        [("__op", "Delete")]
      match api with
      | Except.error e => ⟨r.trace ++ c.trace, [req], Except.error e⟩
      | Except.ok res =>
        ⟨r.trace ++ c.trace ++ [OutEvent.out (deleteSuccessLine params.functionName)] ++
          (if res.functionName ≠ "" then [OutEvent.out (henceforthLine res.functionName)]
           else []),
          [req], Except.ok ()⟩
    else
      ⟨r.trace ++ c.trace, [], Except.ok ()⟩

/-- `functionHooks`, the default `functions` command: a copy of the command
with `All` forced to `true`, delegating to `functionHooksRead`. -/
def functionHooks (input : List String) (api : Except String (List FunctionHook)) :
    RunResult :=
  functionHooksRead true input api

/-- A concrete webhook-backed hook used as a test vector. -/
def hookA : FunctionHook := ⟨"A", "url1", ""⟩

/-- A second concrete webhook-backed hook used as a test vector. -/
def hookB : FunctionHook := ⟨"B", "url2", ""⟩

end ParseCli

namespace ParseCli

/-- A URL that passes validation is in particular non-empty (it carries the
`https://` prefix). -/
theorem validateURL_ne_empty {s : String} (h : validateURL s = true) : s ≠ "" := by
  intro he
  rw [he] at h
  exact absurd h (by decide)

/-- Sorting strings is invariant under permutation of the input: the sorted
permutation of a list under a decidable linear order is unique. -/
theorem sortStrings_congr_of_perm {l₁ l₂ : List String} (h : l₁.Perm l₂) :
    sortStrings l₁ = sortStrings l₂ :=
  List.eq_of_perm_of_sorted
    ((List.perm_insertionSort _ _).trans (h.trans (List.perm_insertionSort _ _).symm))
    (List.sorted_insertionSort _ _) (List.sorted_insertionSort _ _)

/-- Sorting preserves the number of rendered lines. -/
theorem sortStrings_length (l : List String) : (sortStrings l).length = l.length := by
  simp [sortStrings, List.length_insertionSort]

/-- C1: the read operation renders each server result via the hook's
`String()` form and prints the lines sorted lexicographically, so its entire
observable outcome is invariant under permutation of the server's result
collection; moreover the printed line list is sorted and is a permutation of
the rendered results. -/
theorem claim1_read_output_sorted_perm_invariant (all : Bool) (input : List String)
    (l₁ l₂ : List FunctionHook) (h : l₁.Perm l₂) :
    functionHooksRead all input (Except.ok l₁) = functionHooksRead all input (Except.ok l₂) ∧
    List.Sorted (fun a b => a ≤ b) (sortStrings (l₁.map FunctionHook.string)) ∧
    (sortStrings (l₁.map FunctionHook.string)).Perm (l₁.map FunctionHook.string) := by
  have hs : sortStrings (l₁.map FunctionHook.string) =
      sortStrings (l₂.map FunctionHook.string) :=
    sortStrings_congr_of_perm (h.map FunctionHook.string)
  refine ⟨?_, List.sorted_insertionSort _ _, List.perm_insertionSort _ _⟩
  cases all with
  | true => simp [functionHooksRead, hs]
  | false =>
    rcases hr : (readFunctionName input).res with e | f
    · simp [functionHooksRead, hr]
    · simp [functionHooksRead, hr, hs]

/-- C1 witness at the spec's example: the two-element collections
`[A,url1],[B,url2]` and `[B,url2],[A,url1]` render identically. -/
theorem claim1_witness :
    functionHooksRead false ["f"] (Except.ok [hookA, hookB]) =
      functionHooksRead false ["f"] (Except.ok [hookB, hookA]) ∧
    List.Sorted (fun a b => a ≤ b) (sortStrings ([hookA, hookB].map FunctionHook.string)) ∧
    (sortStrings ([hookA, hookB].map FunctionHook.string)).Perm
      ([hookA, hookB].map FunctionHook.string) :=
  claim1_read_output_sorted_perm_invariant false ["f"] [hookA, hookB] [hookB, hookA]
    (List.Perm.swap hookB hookA [])

/-- C2: in the unfiltered mode the collective header is printed regardless of
the result count; in the filtered mode the singular header naming the
requested function is printed exactly when one line is rendered, the plural
header otherwise, and with zero results a header is still printed and the
body is the empty joined line. -/
theorem claim2_read_header_selection (input : List String) (n : String) (rest : List String)
    (l : List FunctionHook) (hn : n ≠ "") :
    (functionHooksRead true input (Except.ok l)).trace =
      [OutEvent.out allFunctionsHeader,
       OutEvent.out (joinedBody (sortStrings (l.map FunctionHook.string)))] ∧
    (functionHooksRead false (n :: rest) (Except.ok l)).trace =
      [OutEvent.out "Please enter the function name: ",
       OutEvent.out (if l.length = 1 then singularHeader n else pluralHeader n),
       OutEvent.out (joinedBody (sortStrings (l.map FunctionHook.string)))] ∧
    (functionHooksRead false (n :: rest) (Except.ok ([] : List FunctionHook))).trace =
      [OutEvent.out "Please enter the function name: ",
       OutEvent.out (pluralHeader n), OutEvent.out "\n"] := by
  have hb : joinedBody (sortStrings ([] : List String)) = "\n" := by decide
  refine ⟨by simp [functionHooksRead], ?_, ?_⟩
  · simp [functionHooksRead, readFunctionName, scanToken, hn, sortStrings_length]
  · simp [functionHooksRead, readFunctionName, scanToken, hn, hb, sortStrings_length]

/-- C2 witness at a singleton result list and at the empty result list. -/
theorem claim2_witness :
    (functionHooksRead true [] (Except.ok [hookA])).trace =
      [OutEvent.out allFunctionsHeader,
       OutEvent.out (joinedBody (sortStrings ([hookA].map FunctionHook.string)))] ∧
    (functionHooksRead false ("f" :: []) (Except.ok [hookA])).trace =
      [OutEvent.out "Please enter the function name: ",
       OutEvent.out (if [hookA].length = 1 then singularHeader "f" else pluralHeader "f"),
       OutEvent.out (joinedBody (sortStrings ([hookA].map FunctionHook.string)))] ∧
    (functionHooksRead false ("f" :: []) (Except.ok ([] : List FunctionHook))).trace =
      [OutEvent.out "Please enter the function name: ",
       OutEvent.out (pluralHeader "f"), OutEvent.out "\n"] :=
  claim2_read_header_selection [] "f" [] [hookA] (by decide)

/-- C3: when the scanned function name is empty, each of the four operations
returns the validation error after the name prompt and issues no HTTP
request at all. -/
theorem claim3_empty_name_rejected_before_network (input : List String)
    (apiHook : Except String FunctionHook) (apiList : Except String (List FunctionHook))
    (h : (scanToken input).1 = "") :
    functionHooksCreate input apiHook =
      ⟨[OutEvent.out "Please enter the function name: "], [],
        Except.error "Function name cannot be empty"⟩ ∧
    functionHooksRead false input apiList =
      ⟨[OutEvent.out "Please enter the function name: "], [],
        Except.error "Function name cannot be empty"⟩ ∧
    functionHooksUpdate input apiHook =
      ⟨[OutEvent.out "Please enter the function name: "], [],
        Except.error "Function name cannot be empty"⟩ ∧
    functionHooksDelete input apiHook =
      ⟨[OutEvent.out "Please enter the function name: "], [],
        Except.error "Function name cannot be empty"⟩ := by
  refine ⟨?_, ?_, ?_, ?_⟩ <;>
    simp [functionHooksCreate, functionHooksRead, functionHooksUpdate, functionHooksDelete,
      readFunctionParams, readFunctionName, h]

/-- C3 witness on the exhausted input stream. -/
theorem claim3_witness :
    functionHooksCreate [] (Except.ok hookA) =
      ⟨[OutEvent.out "Please enter the function name: "], [],
        Except.error "Function name cannot be empty"⟩ ∧
    functionHooksRead false [] (Except.ok ([] : List FunctionHook)) =
      ⟨[OutEvent.out "Please enter the function name: "], [],
        Except.error "Function name cannot be empty"⟩ ∧
    functionHooksUpdate [] (Except.ok hookA) =
      ⟨[OutEvent.out "Please enter the function name: "], [],
        Except.error "Function name cannot be empty"⟩ ∧
    functionHooksDelete [] (Except.ok hookA) =
      ⟨[OutEvent.out "Please enter the function name: "], [],
        Except.error "Function name cannot be empty"⟩ :=
  claim3_empty_name_rejected_before_network [] (Except.ok hookA)
    (Except.ok ([] : List FunctionHook)) rfl

/-- C4: `readFunctionParams` prepends the fixed prefix `https://` to the
scanned token and validates the prefixed URL, succeeding with exactly that
URL and failing otherwise; on validation failure the create operation
returns the error having issued no HTTP request; for the token
`example.com/x` the resulting URL is `https://example.com/x`. -/
theorem claim4_url_prefixed_and_validated (n t : String) (rest : List String)
    (api : Except String FunctionHook) (hn : n ≠ "") :
    (readFunctionParams (n :: t :: rest)).res =
      (if validateURL ("https://" ++ t) then Except.ok ⟨n, "https://" ++ t, ""⟩
       else Except.error invalidURLMessage) ∧
    (validateURL ("https://" ++ t) = false →
      functionHooksCreate (n :: t :: rest) api =
        ⟨[OutEvent.out "Please enter the function name: ", OutEvent.out "URL: https://"], [],
          Except.error invalidURLMessage⟩) ∧
    (readFunctionParams (n :: "example.com/x" :: rest)).res =
      Except.ok ⟨n, "https://" ++ "example.com/x", ""⟩ := by
  have hv : validateURL "https://example.com/x" = true := by decide
  refine ⟨?_, ?_, ?_⟩
  · cases hu : validateURL ("https://" ++ t) with
    | true => simp [readFunctionParams, readFunctionName, scanToken, hn, hu]
    | false => simp [readFunctionParams, readFunctionName, scanToken, hn, hu]
  · intro hu
    simp [functionHooksCreate, readFunctionParams, readFunctionName, scanToken, hn, hu]
  · simp [readFunctionParams, readFunctionName, scanToken, hn, hv]

/-- C4 witness: the empty URL token fails validation (its host is empty) and
create issues no request; the token `example.com/x` yields
`https://example.com/x`. -/
theorem claim4_witness :
    (readFunctionParams ("f" :: "" :: [])).res =
      (if validateURL ("https://" ++ "") then Except.ok ⟨"f", "https://" ++ "", ""⟩
       else Except.error invalidURLMessage) ∧
    (validateURL ("https://" ++ "") = false →
      functionHooksCreate ("f" :: "" :: []) (Except.ok hookA) =
        ⟨[OutEvent.out "Please enter the function name: ", OutEvent.out "URL: https://"], [],
          Except.error invalidURLMessage⟩) ∧
    (readFunctionParams ("f" :: "example.com/x" :: [])).res =
      Except.ok ⟨"f", "https://" ++ "example.com/x", ""⟩ :=
  claim4_url_prefixed_and_validated "f" "" [] (Except.ok hookA) (by decide)

/-- C5: on a successful create or update the warning, when non-empty, is
written to the error stream before the confirmation line, and the
confirmation line names exactly the function name and URL carried by the
server's response, not the submitted pair. -/
theorem claim5_confirmation_from_server_response (n t : String) (rest : List String)
    (res : FunctionHook) (hn : n ≠ "") (hv : validateURL ("https://" ++ t) = true) :
    functionHooksCreate (n :: t :: rest) (Except.ok res) =
      ⟨[OutEvent.out "Please enter the function name: ", OutEvent.out "URL: https://"] ++
        warningEvents res ++ [OutEvent.out (createSuccessLine res)],
       [HttpReq.post defaultFunctionsURL
         (FunctionHook.jsonFields ⟨n, "https://" ++ t, ""⟩)],
       Except.ok ()⟩ ∧
    functionHooksUpdate (n :: t :: rest) (Except.ok res) =
      ⟨[OutEvent.out "Please enter the function name: ", OutEvent.out "URL: https://"] ++
        warningEvents res ++ [OutEvent.out (updateSuccessLine res)],
       [HttpReq.put (pathJoin defaultFunctionsURL n)
         (FunctionHook.jsonFields ⟨"", "https://" ++ t, ""⟩)],
       Except.ok ()⟩ := by
  constructor <;>
    simp [functionHooksCreate, functionHooksUpdate, readFunctionParams, readFunctionName,
      scanToken, hn, hv]

/-- C5 witness: the user submits name `f` and URL token `x.io/f`, the server
responds with the different pair `hello`/`https://x.io/f` and a warning; the
output names the server's pair and the warning precedes it. -/
theorem claim5_witness :
    functionHooksCreate ("f" :: "x.io/f" :: [])
        (Except.ok ⟨"hello", "https://x.io/f", "careful"⟩) =
      ⟨[OutEvent.out "Please enter the function name: ", OutEvent.out "URL: https://"] ++
        warningEvents ⟨"hello", "https://x.io/f", "careful"⟩ ++
        [OutEvent.out (createSuccessLine ⟨"hello", "https://x.io/f", "careful"⟩)],
       [HttpReq.post defaultFunctionsURL
         (FunctionHook.jsonFields ⟨"f", "https://" ++ "x.io/f", ""⟩)],
       Except.ok ()⟩ ∧
    functionHooksUpdate ("f" :: "x.io/f" :: [])
        (Except.ok ⟨"hello", "https://x.io/f", "careful"⟩) =
      ⟨[OutEvent.out "Please enter the function name: ", OutEvent.out "URL: https://"] ++
        warningEvents ⟨"hello", "https://x.io/f", "careful"⟩ ++
        [OutEvent.out (updateSuccessLine ⟨"hello", "https://x.io/f", "careful"⟩)],
       [HttpReq.put (pathJoin defaultFunctionsURL "f")
         (FunctionHook.jsonFields ⟨"", "https://" ++ "x.io/f", ""⟩)],
       Except.ok ()⟩ :=
  claim5_confirmation_from_server_response "f" "x.io/f" []
    ⟨"hello", "https://x.io/f", "careful"⟩ (by decide) (by decide)

/-- C6: the update operation sends a `PUT` to collection-path/name whose
serialized body contains the `url` field and nothing else: the empty
function name and warning are omitted by `omitempty`. -/
theorem claim6_update_body_contains_only_url (n t : String) (rest : List String)
    (api : Except String FunctionHook) (hn : n ≠ "") (hv : validateURL ("https://" ++ t) = true) :
    (functionHooksUpdate (n :: t :: rest) api).reqs =
      [HttpReq.put (pathJoin defaultFunctionsURL n) [("url", "https://" ++ t)]] := by
  have hu : ("https://" ++ t) ≠ "" := validateURL_ne_empty hv
  cases api with
  | error e =>
    simp [functionHooksUpdate, readFunctionParams, readFunctionName, scanToken, hn, hv,
      FunctionHook.jsonFields, hu]
  | ok res =>
    simp [functionHooksUpdate, readFunctionParams, readFunctionName, scanToken, hn, hv,
      FunctionHook.jsonFields, hu]

/-- C6 witness at name `f` and URL token `x.io/f`. -/
theorem claim6_witness :
    (functionHooksUpdate ("f" :: "x.io/f" :: []) (Except.ok hookA)).reqs =
      [HttpReq.put (pathJoin defaultFunctionsURL "f") [("url", "https://" ++ "x.io/f")]] :=
  claim6_update_body_contains_only_url "f" "x.io/f" [] (Except.ok hookA)
    (by decide) (by decide)

/-- C7: a delete invocation with a valid name whose confirmation is answered
negatively issues no HTTP request and returns success, having printed only
the name prompt and the confirmation prompt. -/
theorem claim7_delete_declined_is_noop (n ans : String) (rest : List String)
    (api : Except String FunctionHook) (hn : n ≠ "") (ha : isAffirmative ans = false) :
    functionHooksDelete (n :: ans :: rest) api =
      ⟨[OutEvent.out "Please enter the function name: ",
        OutEvent.out (deleteConfirmMessage n)], [], Except.ok ()⟩ := by
  simp [functionHooksDelete, readFunctionName, scanToken, getConfirmation, hn, ha]

/-- C7 witness: name `f`, answer `n`. -/
theorem claim7_witness :
    functionHooksDelete ("f" :: "n" :: []) (Except.ok hookA) =
      ⟨[OutEvent.out "Please enter the function name: ",
        OutEvent.out (deleteConfirmMessage "f")], [], Except.ok ()⟩ :=
  claim7_delete_declined_is_noop "f" "n" [] (Except.ok hookA) (by decide) (by decide)

/-- C8: an accepted delete issues a `PUT` to collection-path/name with body
`__op: Delete`, prints the deletion confirmation, and prints the cloud-code
fallback notice naming the response's function name exactly when that name
is non-empty. -/
theorem claim8_delete_confirmed_put_and_fallback (n ans : String) (rest : List String)
    (res : FunctionHook) (hn : n ≠ "") (ha : isAffirmative ans = true) :
    functionHooksDelete (n :: ans :: rest) (Except.ok res) =
      ⟨[OutEvent.out "Please enter the function name: ",
        OutEvent.out (deleteConfirmMessage n),
        OutEvent.out (deleteSuccessLine n)] ++
        (if res.functionName ≠ "" then [OutEvent.out (henceforthLine res.functionName)]
         else []),
       [HttpReq.put (pathJoin defaultFunctionsURL n) [("__op", "Delete")]],
       Except.ok ()⟩ := by
  simp [functionHooksDelete, readFunctionName, scanToken, getConfirmation, hn, ha]

/-- C8 witness: name `f`, answer `y`, server response carrying
`functionName = foo`. -/
theorem claim8_witness :
    functionHooksDelete ("f" :: "y" :: []) (Except.ok ⟨"foo", "", ""⟩) =
      ⟨[OutEvent.out "Please enter the function name: ",
        OutEvent.out (deleteConfirmMessage "f"),
        OutEvent.out (deleteSuccessLine "f")] ++
        (if FunctionHook.functionName ⟨"foo", "", ""⟩ ≠ "" then
          [OutEvent.out (henceforthLine (FunctionHook.functionName ⟨"foo", "", ""⟩))]
         else []),
       [HttpReq.put (pathJoin defaultFunctionsURL "f") [("__op", "Delete")]],
       Except.ok ()⟩ :=
  claim8_delete_confirmed_put_and_fallback "f" "y" [] ⟨"foo", "", ""⟩ (by decide) (by decide)

/-- C9: the `https://` prefix is prepended to the scanned token by plain
concatenation with no scheme detection, so a token already carrying a scheme
yields the doubled URL `https://https://example.com`, which (passing
validation) is submitted as the create body's `url` field. -/
theorem claim9_prefix_unconditional_doubling (n t : String) (rest : List String)
    (res : FunctionHook) (hn : n ≠ "") :
    (readFunctionParams (n :: t :: rest)).res =
      (if validateURL ("https://" ++ t) then Except.ok ⟨n, "https://" ++ t, ""⟩
       else Except.error invalidURLMessage) ∧
    (functionHooksCreate (n :: "https://example.com" :: rest) (Except.ok res)).reqs =
      [HttpReq.post defaultFunctionsURL
        [("functionName", n), ("url", "https://https://example.com")]] := by
  have hv : validateURL "https://https://example.com" = true := by decide
  constructor
  · cases hu : validateURL ("https://" ++ t) with
    | true => simp [readFunctionParams, readFunctionName, scanToken, hn, hu]
    | false => simp [readFunctionParams, readFunctionName, scanToken, hn, hu]
  · simp [functionHooksCreate, readFunctionParams, readFunctionName, scanToken, hn, hv,
      FunctionHook.jsonFields]

/-- C9 witness: token `https://example.com` produces the doubled URL. -/
theorem claim9_witness :
    (readFunctionParams ("f" :: "https://example.com" :: [])).res =
      (if validateURL ("https://" ++ "https://example.com") then
        Except.ok ⟨"f", "https://" ++ "https://example.com", ""⟩
       else Except.error invalidURLMessage) ∧
    (functionHooksCreate ("f" :: "https://example.com" :: []) (Except.ok hookA)).reqs =
      [HttpReq.post defaultFunctionsURL
        [("functionName", "f"), ("url", "https://https://example.com")]] :=
  claim9_prefix_unconditional_doubling "f" "https://example.com" [] hookA (by decide)

/-- C10: the delete operation's entire observable behavior is unchanged by
the warning carried in the server's response: nothing derived from the
warning is written to either stream. -/
theorem claim10_delete_ignores_warning (input : List String) (res : FunctionHook)
    (w : String) :
    functionHooksDelete input (Except.ok { res with warning := w }) =
      functionHooksDelete input (Except.ok res) := by
  rcases hr : (readFunctionName input).res with e | params
  · simp [functionHooksDelete, hr]
  · cases hc : (getConfirmation (deleteConfirmMessage params.functionName)
        (readFunctionName input).rest).confirmed with
    | true => simp [functionHooksDelete, hr, hc]
    | false => simp [functionHooksDelete, hr, hc]

end ParseCli
